import Mathlib

/-!
Shallow embedding of the stock-backtester (`src/main.py`, class `StockScanner`).

Conventions of the embedding:
* pandas/numpy float columns become `List ℚ`; columns that can hold NaN
  (RSI warm-up bars, `shift(1)` columns) become `List (Option ℚ)`, with
  `none` standing for NaN.
* IEEE comparisons with NaN are always false; `oLT` / `oLE` encode this.
* Python `range(a, b)` over history indices becomes `List.range'` with a
  truncated-subtraction count (empty when `b ≤ a`, exactly as in Python).
* Exact rational arithmetic replaces floating point; the special IEEE
  values produced by the source (`gain/0 = +inf`, `0/0 = NaN`) are spelled
  out as explicit case splits where they arise (see `rsiAt`).
-/

namespace StockBacktester

/-- Comparison `a < b` on possibly-NaN floats: false whenever either side is NaN. -/
def oLT : Option ℚ → Option ℚ → Bool
  | some a, some b => decide (a < b)
  | _, _ => false

/-- Comparison `a ≤ b` on possibly-NaN floats: false whenever either side is NaN. -/
def oLE : Option ℚ → Option ℚ → Bool
  | some a, some b => decide (a ≤ b)
  | _, _ => false

/-- Read a cell of a possibly-NaN column; out-of-range reads as NaN
(only used at in-range indices by the loop, like `df.iloc`). -/
def rowGet (l : List (Option ℚ)) (i : ℕ) : Option ℚ := l.getD i none

/-- Read a cell of a defined (float, never-NaN) column as an optional value. -/
def colGet (l : List ℚ) (i : ℕ) : Option ℚ := l.get? i

/-- Exponential moving average with `adjust=False`:
`ema[0] = close[0]`, `ema[i] = α·close[i] + (1−α)·ema[i−1]`
(`df['Close'].ewm(span=S, adjust=False).mean()`, `α = 2/(S+1)`). -/
def ewmaAux (α : ℚ) (prev : ℚ) : List ℚ → List ℚ
  | [] => []
  | c :: cs => (α * c + (1 - α) * prev) :: ewmaAux α (α * c + (1 - α) * prev) cs

/-- Full EWMA column for a close series. -/
def ewma (α : ℚ) : List ℚ → List ℚ
  | [] => []
  | c :: cs => c :: ewmaAux α c cs

/-- Price difference `delta[i] = close[i] − close[i−1]` (`df['Close'].diff()`);
meaningful for `1 ≤ i < len` only, which is how it is consumed below. -/
def deltaAt (c : List ℚ) (i : ℕ) : ℚ := c.getD i 0 - c.getD (i - 1) 0

/-- Trailing 14-bar mean of positive deltas
(`delta.where(delta > 0, 0).rolling(window=14).mean()` at index `i ≥ 14`). -/
def gainAvg (c : List ℚ) (i : ℕ) : ℚ :=
  (((List.range 14).map (fun k => max (deltaAt c (i - k)) 0)).sum) / 14

/-- Trailing 14-bar mean of negative deltas, as positive losses
(`(-delta.where(delta < 0, 0)).rolling(window=14).mean()` at index `i ≥ 14`). -/
def lossAvg (c : List ℚ) (i : ℕ) : ℚ :=
  (((List.range 14).map (fun k => max (-(deltaAt c (i - k))) 0)).sum) / 14

/-- RSI(14) at index `i` (`rs = gain/loss; RSI = 100 − 100/(1+rs)`), with the
IEEE special values of the source spelled out:
* `i < 14`: the rolling window is incomplete or contains the NaN `delta[0]`,
  so gain/loss and hence RSI are NaN (`none`);
* `loss = 0, gain ≠ 0`: `rs = +inf`, `100/(1+rs) = 0`, RSI `= 100`;
* `loss = 0, gain = 0`: `rs = 0/0 = NaN`, RSI is NaN (`none`);
* otherwise the finite formula applies. -/
def rsiAt (c : List ℚ) (i : ℕ) : Option ℚ :=
  if 14 ≤ i ∧ i < c.length then
    if lossAvg c i = 0 then
      if gainAvg c i = 0 then none else some 100
    else some (100 - 100 / (1 + gainAvg c i / lossAvg c i))
  else none

/-- RSI column aligned with the close series. -/
def rsiList (c : List ℚ) : List (Option ℚ) := (List.range c.length).map (rsiAt c)

/-- Forward percentage return (`_get_return`): out-of-bounds positional access
raises `IndexError`, which the source converts to NaN (`none`). -/
def get_return (close : List ℚ) (idx days : ℕ) : Option ℚ :=
  if idx + days < close.length then
    some ((close.getD (idx + days) 0 - close.getD idx 0) / close.getD idx 0 * 100)
  else none

/-- Last element of a pandas series (`.iloc[-1]`); the source only applies it
to nonempty 5-point tails, so the default is never consumed. -/
def lastOf (l : List ℚ) : ℚ := l.getLast?.getD 0

/-- Ordinary least-squares slope of `linregress(arange(n), y)`:
`(n·Σxy − Σx·Σy) / (n·Σx² − (Σx)²)`. -/
def lrSlope (y : List ℚ) : ℚ :=
  let n : ℚ := y.length
  let xs : List ℚ := (List.range y.length).map (fun i => (i : ℚ))
  let sx := xs.sum
  let sy := y.sum
  let sxy := ((xs.zip y).map (fun p => p.1 * p.2)).sum
  let sxx := (xs.map (fun x => x * x)).sum
  (n * sxy - sx * sy) / (n * sxx - sx * sx)

/-- Gap between the two series at the most recent bar (`curr_s − curr_l`). -/
def gapOf (s l : List ℚ) : ℚ := lastOf s - lastOf l

/-- Relative closing speed of the gap (`slope_s − slope_l`). -/
def netSlopeOf (s l : List ℚ) : ℚ := lrSlope s - lrSlope l

/-- Result of `predict_cross` for one MA pair. -/
structure CrossPred where
  bullish : Bool
  converging : Bool
  days : Option ℚ
deriving DecidableEq

/-- Convergence predictor (`predict_cross`): the pair is converging exactly
when the gap and the net slope have strictly opposite signs; only in that
branch is `gap / net_slope` evaluated. -/
def predict_cross (s l : List ℚ) : CrossPred :=
  if (0 < gapOf s l ∧ netSlopeOf s l < 0) ∨ (gapOf s l < 0 ∧ 0 < netSlopeOf s l) then
    { bullish := decide (0 < gapOf s l), converging := true,
      days := some |gapOf s l / netSlopeOf s l| }
  else
    { bullish := decide (0 < gapOf s l), converging := false, days := none }

/-- C5: the convergence predictor reports converging exactly when gap and
net slope have strictly opposite signs; in that case the net slope is nonzero
and the day estimate is `|gap / net_slope|`; in every other case (including a
zero net slope) no estimate is produced, so the division is never reached
with a zero divisor. -/
theorem c5_predict_cross (s l : List ℚ) :
    ((predict_cross s l).converging = true ↔
      ((0 < gapOf s l ∧ netSlopeOf s l < 0) ∨ (gapOf s l < 0 ∧ 0 < netSlopeOf s l))) ∧
    ((predict_cross s l).converging = true →
      netSlopeOf s l ≠ 0 ∧ (predict_cross s l).days = some |gapOf s l / netSlopeOf s l|) ∧
    (netSlopeOf s l = 0 → (predict_cross s l).days = none) ∧
    ((predict_cross s l).converging = false → (predict_cross s l).days = none) := by
  by_cases h : (0 < gapOf s l ∧ netSlopeOf s l < 0) ∨ (gapOf s l < 0 ∧ 0 < netSlopeOf s l)
  · refine ⟨by simp [predict_cross, h], fun _ => ⟨?_, by simp [predict_cross, h]⟩, ?_, ?_⟩
    · rcases h with ⟨_, hn⟩ | ⟨_, hn⟩
      · exact ne_of_lt hn
      · exact ne_of_gt hn
    · intro hz
      rcases h with ⟨_, hn⟩ | ⟨_, hn⟩ <;> simp [hz] at hn
    · intro hc
      simp [predict_cross, h] at hc
  · refine ⟨by simp [predict_cross, h], ?_, fun _ => by simp [predict_cross, h],
      fun _ => by simp [predict_cross, h]⟩
    intro hc
    simp [predict_cross, h] at hc

unseal Rat.add Rat.mul Rat.sub Rat.inv in
/-- Witness for C5 on concrete series: a falling short MA (slope −1) ending at
14…10 above a rising long MA (slope 1) ending at 5 has gap 5 and net slope −2,
so the predictor reports converging in 5/2 days. -/
theorem c5_predict_cross_witness :
    (predict_cross [14, 13, 12, 11, 10] [1, 2, 3, 4, 5]).converging = true ∧
    (predict_cross [14, 13, 12, 11, 10] [1, 2, 3, 4, 5]).days = some (5 / 2) := by
  have h := c5_predict_cross [14, 13, 12, 11, 10] [1, 2, 3, 4, 5]
  have hsign : (0 < gapOf [14, 13, 12, 11, 10] [1, 2, 3, 4, 5] ∧
      netSlopeOf [14, 13, 12, 11, 10] [1, 2, 3, 4, 5] < 0) ∨
      (gapOf [14, 13, 12, 11, 10] [1, 2, 3, 4, 5] < 0 ∧
      0 < netSlopeOf [14, 13, 12, 11, 10] [1, 2, 3, 4, 5]) := by
    left
    constructor <;> decide
  have hc := h.1.mpr hsign
  refine ⟨hc, ?_⟩
  rw [(h.2.1 hc).2]
  decide

/-- C6: the forward return at a signal index satisfies the round-trip identity
`close[i] · (1 + return_h / 100) = close[i+h]` whenever `i+h` is in bounds
(and the entry price is nonzero, as every real close is), and is undefined
(`none`, never `some 0`) when `i+h` is out of bounds. -/
theorem c6_forward_return (close : List ℚ) (i h : ℕ) :
    (i + h < close.length → close.getD i 0 ≠ 0 →
      ∃ r, get_return close i h = some r ∧
        close.getD i 0 * (1 + r / 100) = close.getD (i + h) 0) ∧
    (close.length ≤ i + h → get_return close i h = none) := by
  constructor
  · intro hin hc
    refine ⟨(close.getD (i + h) 0 - close.getD i 0) / close.getD i 0 * 100,
      by simp [get_return, hin], ?_⟩
    generalize close.getD i 0 = a at hc ⊢
    generalize close.getD (i + h) 0 = b
    field_simp
    ring
  · intro hout
    simp [get_return]
    omega

/-- Witness for C6: for close series `[100, 110]`, the 1-bar return at index 0
exists and round-trips to 110, and the 5-bar return at index 0 is undefined. -/
theorem c6_forward_return_witness :
    (∃ r, get_return [100, 110] 0 1 = some r ∧
      ([(100 : ℚ), 110].getD 0 0) * (1 + r / 100) = [(100 : ℚ), 110].getD 1 0) ∧
    get_return [100, 110] 0 5 = none := by
  refine ⟨(c6_forward_return [100, 110] 0 1).1 (by decide) (by norm_num), ?_⟩
  exact (c6_forward_return [100, 110] 0 5).2 (by decide)

/-- Enriched dataframe produced by `fetch_data` + `_calculate_indicators`:
the close series and the indicator columns, aligned by index. -/
structure Frame where
  close : List ℚ
  ma9 : List ℚ
  ma21 : List ℚ
  ma50 : List ℚ
  macd : List ℚ
  rsi : List (Option ℚ)
deriving DecidableEq

/-- Indicator calculation (`_calculate_indicators`): EWMAs with
`α = 2/(span+1)` for spans 9, 21, 50; MACD line = EMA12 − EMA26; RSI(14). -/
def calculate_indicators (close : List ℚ) : Frame :=
  { close := close
    ma9 := ewma (1 / 5) close
    ma21 := ewma (1 / 11) close
    ma50 := ewma (2 / 51) close
    macd := List.zipWith (fun a b => a - b) (ewma (2 / 13) close) (ewma (2 / 27) close)
    rsi := rsiList close }

/-- Column shift by one bar (`.shift(1)`) of a float column: index 0 becomes
NaN, index `j ≥ 1` holds the value at `j − 1`; length is preserved. -/
def colShiftQ (l : List ℚ) : List (Option ℚ) :=
  (List.range l.length).map (fun j => if j = 0 then none else some (l.getD (j - 1) 0))

/-- Column shift by one bar (`.shift(1)`) of a possibly-NaN column. -/
def colShift (l : List (Option ℚ)) : List (Option ℚ) :=
  (List.range l.length).map (fun j => if j = 0 then none else l.getD (j - 1) none)

/-- Working copy of the dataframe inside `run_backtest` after the five
`Prev_*` shift columns have been added (lines 74–80 of the source). -/
structure Enriched where
  close : List ℚ
  ma9 : List ℚ
  ma21 : List ℚ
  ma50 : List ℚ
  macd : List ℚ
  rsi : List (Option ℚ)
  pma9 : List (Option ℚ)
  pma21 : List (Option ℚ)
  pma50 : List (Option ℚ)
  pmacd : List (Option ℚ)
  prsi : List (Option ℚ)

/-- Build the working copy: `df = self.df.copy()` followed by
`df['Prev_X'] = df['X'].shift(1)` for the five indicator columns. -/
def enrich (fr : Frame) : Enriched :=
  { close := fr.close, ma9 := fr.ma9, ma21 := fr.ma21, ma50 := fr.ma50,
    macd := fr.macd, rsi := fr.rsi,
    pma9 := colShiftQ fr.ma9, pma21 := colShiftQ fr.ma21,
    pma50 := colShiftQ fr.ma50, pmacd := colShiftQ fr.macd,
    prsi := colShift fr.rsi }

/-- Signal decision at loop index `i` (lines 94–119 of the source).
`prev = df.iloc[i-1]` and `curr = df.iloc[i]`, so `prev['Prev_X']` is the
shift column read one row back — the value of `X` at index `i − 2` — while
`curr['X']` is the unshifted value at `i`. The chain of `if`/`elif` keeps
only the first condition that holds. -/
def signalAt (e : Enriched) (i : ℕ) : Option String :=
  if oLT (rowGet e.pma9 (i - 1)) (rowGet e.pma21 (i - 1)) &&
      oLT (colGet e.ma21 i) (colGet e.ma9 i) then
    some ("MA 9 > 21 (Bull Momentum)")
  else if oLT (rowGet e.pma21 (i - 1)) (rowGet e.pma9 (i - 1)) &&
      oLT (colGet e.ma9 i) (colGet e.ma21 i) then
    some ("MA 9 < 21 (Bear Momentum)")
  else if oLT (rowGet e.pma21 (i - 1)) (rowGet e.pma50 (i - 1)) &&
      oLT (colGet e.ma50 i) (colGet e.ma21 i) then
    some ("MA 21 > 50 (Bull Trend)")
  else if oLT (rowGet e.pma50 (i - 1)) (rowGet e.pma21 (i - 1)) &&
      oLT (colGet e.ma21 i) (colGet e.ma50 i) then
    some ("MA 21 < 50 (Bear Trend)")
  else if oLT (rowGet e.pmacd (i - 1)) (some 0) && oLT (some 0) (colGet e.macd i) then
    some ("MACD Zero Cross Up")
  else if oLT (some 0) (rowGet e.pmacd (i - 1)) && oLT (colGet e.macd i) (some 0) then
    some ("MACD Zero Cross Down")
  else if oLT (rowGet e.prsi (i - 1)) (some 70) && oLE (some 70) (rowGet e.rsi i) then
    some ("RSI Enter >70 (Overbought)")
  else if oLT (some 30) (rowGet e.prsi (i - 1)) && oLE (rowGet e.rsi i) (some 30) then
    some ("RSI Enter <30 (Oversold)")
  else none

/-- Priority list of the eight detector conditions, in the order the source
tests them, each paired with the signal label it produces. -/
def conds (e : Enriched) (i : ℕ) : List (Bool × String) :=
  [ (oLT (rowGet e.pma9 (i - 1)) (rowGet e.pma21 (i - 1)) &&
      oLT (colGet e.ma21 i) (colGet e.ma9 i), "MA 9 > 21 (Bull Momentum)"),
    (oLT (rowGet e.pma21 (i - 1)) (rowGet e.pma9 (i - 1)) &&
      oLT (colGet e.ma9 i) (colGet e.ma21 i), "MA 9 < 21 (Bear Momentum)"),
    (oLT (rowGet e.pma21 (i - 1)) (rowGet e.pma50 (i - 1)) &&
      oLT (colGet e.ma50 i) (colGet e.ma21 i), "MA 21 > 50 (Bull Trend)"),
    (oLT (rowGet e.pma50 (i - 1)) (rowGet e.pma21 (i - 1)) &&
      oLT (colGet e.ma21 i) (colGet e.ma50 i), "MA 21 < 50 (Bear Trend)"),
    (oLT (rowGet e.pmacd (i - 1)) (some 0) && oLT (some 0) (colGet e.macd i),
      "MACD Zero Cross Up"),
    (oLT (some 0) (rowGet e.pmacd (i - 1)) && oLT (colGet e.macd i) (some 0),
      "MACD Zero Cross Down"),
    (oLT (rowGet e.prsi (i - 1)) (some 70) && oLE (some 70) (rowGet e.rsi i),
      "RSI Enter >70 (Overbought)"),
    (oLT (some 30) (rowGet e.prsi (i - 1)) && oLE (rowGet e.rsi i) (some 30),
      "RSI Enter <30 (Oversold)") ]

/-- One backtest signal event: the loop index at which it fired, its label,
and the three forward returns recorded with it. -/
structure Event where
  idx : ℕ
  kind : String
  r5 : Option ℚ
  r10 : Option ℚ
  r20 : Option ℚ
deriving DecidableEq, Inhabited

/-- Signal events collected by the backtest loop
`for i in range(50, len(df) - 20)` (Python's empty range when
`len(df) - 20 ≤ 50` is matched by the truncated count `len − 70`). -/
def signalsOf (fr : Frame) : List Event :=
  (List.range' 50 (fr.close.length - 70)).filterMap (fun i =>
    match signalAt (enrich fr) i with
    | some k =>
        some { idx := i, kind := k, r5 := get_return fr.close i 5,
               r10 := get_return fr.close i 10, r20 := get_return fr.close i 20 }
    | none => none)

/-- C2: the detector keeps at most one signal kind per bar, namely the label
of the first condition (in the fixed priority order of `conds`) that holds;
later simultaneously-true conditions are ignored. -/
theorem c2_priority_first_match (e : Enriched) (i : ℕ) :
    signalAt e i = ((conds e i).find? Prod.fst).map Prod.snd := by
  simp only [signalAt, conds, List.find?_cons]
  repeat' split
  all_goals simp_all

/-- Specification-side condition, written from the spec's words (refinement
comparison for C1): the MA-fast-over-mid (bull) crossover at bar `i` is a
one-step-shift test, `MA_fast[i−1] < MA_mid[i−1]` and `MA_fast[i] > MA_mid[i]`. -/
def specOneStepBull (fr : Frame) (i : ℕ) : Bool :=
  oLT (colGet fr.ma9 (i - 1)) (colGet fr.ma21 (i - 1)) &&
    oLT (colGet fr.ma21 i) (colGet fr.ma9 i)

/-- Concrete 71-bar frame exhibiting the shift bug: MA9 dips below MA21 only
at index 49, so the one-step crossover condition holds at index 50
(`MA9[49] < MA21[49]`, `MA9[50] > MA21[50]`), while two bars back
`MA9[48] > MA21[48]`. All other columns are constant and trigger nothing. -/
def bugFrame : Frame :=
  { close := List.replicate 71 1
    ma9 := (List.range 71).map (fun i => if i = 49 then 1 else 2)
    ma21 := (List.range 71).map (fun i => if i = 49 then 2 else 1)
    ma50 := List.replicate 71 10
    macd := List.replicate 71 1
    rsi := List.replicate 71 (some 50) }

/-- C1 (refuted — code bug): at index 50 of `bugFrame` the spec's one-step
crossover condition for MA-fast-over-mid holds, yet the detector emits no
signal, because `prev['Prev_MA9']` reads the already-shifted column one row
back and therefore compares bar `i−2` (index 48) against bar `i` — a
two-step shift, contradicting both the spec and the source's own intent in
building the `Prev_*` columns for a crossover test. -/
theorem c1_two_step_shift_bug :
    signalAt (enrich bugFrame) 50 = none ∧ specOneStepBull bugFrame 50 = true := by
  decide

/-- Concrete 71-bar frame on which the detector does fire: MA9 dips below
MA21 exactly at index 48, so the detector's (two-step) condition holds at
loop index 50 and `signalsOf` is nonempty. -/
def witFrame : Frame :=
  { close := List.replicate 71 1
    ma9 := (List.range 71).map (fun i => if i = 48 then 1 else 2)
    ma21 := (List.range 71).map (fun i => if i = 48 then 2 else 1)
    ma50 := List.replicate 71 10
    macd := List.replicate 71 1
    rsi := List.replicate 71 (some 50) }

/-- Membership in `signalsOf` comes from a loop index inside the scan range,
and the event's fields are exactly what the loop body recorded there. -/
theorem mem_signalsOf (fr : Frame) (e : Event) (he : e ∈ signalsOf fr) :
    ∃ i, 50 ≤ i ∧ i + 20 < fr.close.length ∧ e.idx = i ∧
      e.r5 = get_return fr.close i 5 ∧ e.r10 = get_return fr.close i 10 ∧
      e.r20 = get_return fr.close i 20 := by
  simp only [signalsOf] at he
  rw [List.mem_filterMap] at he
  obtain ⟨i, hi, hfi⟩ := he
  rw [List.mem_range'_1] at hi
  refine ⟨i, by omega, by omega, ?_⟩
  cases hs : signalAt (enrich fr) i <;> rw [hs] at hfi
  · exact absurd hfi (by simp)
  · simp only [Option.some_inj] at hfi
    rw [← hfi]
    exact ⟨rfl, rfl, rfl, rfl⟩

/-- C8: every event emitted by the backtest loop lies at an index of at
least 50 and more than 20 bars before the end of the series. -/
theorem c8_scan_bounds (fr : Frame) (e : Event) (he : e ∈ signalsOf fr) :
    50 ≤ e.idx ∧ e.idx + 20 < fr.close.length := by
  obtain ⟨i, h1, h2, h3, -⟩ := mem_signalsOf fr e he
  omega

/-- Witness for C8: on `witFrame` the loop emits an event (at index 50), and
the emitted event satisfies the scan bounds. -/
theorem c8_scan_bounds_witness :
    50 ≤ ((signalsOf witFrame).headI).idx ∧
      ((signalsOf witFrame).headI).idx + 20 < witFrame.close.length := by
  have hm : (signalsOf witFrame).headI ∈ signalsOf witFrame := by
    cases hl : signalsOf witFrame with
    | nil => exact absurd hl (by decide)
    | cons a l => simp [hl]
  exact c8_scan_bounds witFrame _ hm

/-- C9: every event emitted by the backtest loop carries all three forward
returns defined — the out-of-bounds (`none`) branch of `get_return` is
unreachable from the loop because the scan stops 20 bars before the end. -/
theorem c9_returns_defined (fr : Frame) (e : Event) (he : e ∈ signalsOf fr) :
    e.r5.isSome = true ∧ e.r10.isSome = true ∧ e.r20.isSome = true := by
  obtain ⟨i, h1, h2, h3, h5, h10, h20⟩ := mem_signalsOf fr e he
  rw [h5, h10, h20]
  refine ⟨?_, ?_, ?_⟩ <;>
    · rw [get_return, if_pos (by omega)]
      rfl

/-- Witness for C9: the event emitted on `witFrame` has its 5-, 10- and
20-bar returns all defined. -/
theorem c9_returns_defined_witness :
    ((signalsOf witFrame).headI).r5.isSome = true ∧
      ((signalsOf witFrame).headI).r10.isSome = true ∧
      ((signalsOf witFrame).headI).r20.isSome = true := by
  have hm : (signalsOf witFrame).headI ∈ signalsOf witFrame := by
    cases hl : signalsOf witFrame with
    | nil => exact absurd hl (by decide)
    | cons a l => simp [hl]
  exact c9_returns_defined witFrame _ hm

/-- Lexicographic code-point comparison of strings, as Python compares the
`Signal` group keys (ASCII labels, so code-point order is Python's order). -/
def strLeB : List Char → List Char → Bool
  | [], _ => true
  | _ :: _, [] => false
  | a :: as, b :: bs =>
      a.toNat < b.toNat || (a.toNat == b.toNat && strLeB as bs)

/-- String order used by `groupby` for its keys. -/
def strLe (a b : String) : Bool := strLeB a.data b.data

/-- Distinct signal kinds present in an event list. -/
def kindsOf (evs : List Event) : List String := (evs.map Event.kind).dedup

/-- Group keys as `groupby('Signal')` yields them: distinct kinds in
ascending (alphabetical) key order — `groupby` sorts its keys by default. -/
def kindsSorted (evs : List Event) : List String :=
  List.insertionSort (fun a b => strLe a b = true) (kindsOf evs)

/-- Rows of one group, in their original order (`groupby` preserves the
within-group order of the input). -/
def groupEvents (evs : List Event) (k : String) : List Event :=
  evs.filter (fun e => decide (e.kind = k))

/-- Defined (non-NaN) values of an annotated column. -/
def definedVals (l : List (Option ℚ)) : List ℚ := l.filterMap id

/-- Mean as pandas computes it: NaN entries are skipped; an all-NaN column
has mean NaN. -/
def optMean (l : List (Option ℚ)) : Option ℚ :=
  if (definedVals l).length = 0 then none
  else some ((definedVals l).sum / ((definedVals l).length : ℚ))

/-- One line of the backtest summary table. -/
structure Row where
  kind : String
  count : ℕ
  avg5 : Option ℚ
  avg20 : Option ℚ
  win20 : ℚ
deriving DecidableEq, Inhabited

/-- Win predicate of `Win_Rate_20d=('Ret_20d', lambda x: (x > 0).mean() * 100)`:
`NaN > 0` is false, so an undefined 20-bar return counts as a loss, and the
denominator of the mean is the full group size. -/
def winWon (e : Event) : Bool :=
  match e.r20 with
  | some r => decide (0 < r)
  | none => false

/-- Aggregation of one group (`.agg(Count=..., Avg_5d=..., Avg_20d=...,
Win_Rate_20d=...)`): `('Ret_5d', 'count')` counts non-NaN entries only. -/
def aggRow (evs : List Event) (k : String) : Row :=
  { kind := k
    count := (definedVals ((groupEvents evs k).map Event.r5)).length
    avg5 := optMean ((groupEvents evs k).map Event.r5)
    avg20 := optMean ((groupEvents evs k).map Event.r20)
    win20 := (((groupEvents evs k).filter winWon).length : ℚ) /
      ((groupEvents evs k).length : ℚ) * 100 }

/-- Summary table `res.groupby('Signal').agg(...).sort_values(by='Count',
ascending=False)`: `groupby` emits one row per distinct kind in ascending key
order; for a descending sort pandas argsorts ascending (numpy quicksort falls
back to a stable insertion sort on tables this small) and then reverses the
whole order, so equal counts end up in reverse-alphabetical order. -/
def summarize (evs : List Event) : List Row :=
  (List.insertionSort (fun a b : Row => a.count ≤ b.count)
    ((kindsSorted evs).map (aggRow evs))).reverse

/-- Scanner object: the only instance state `run_backtest` can touch is the
fetched dataframe `self.df` (`None` until `fetch_data` succeeds). -/
structure Scanner where
  df : Option Frame

/-- Backtest entry point (`run_backtest`): returns early when `self.df` is
`None`; otherwise works on the copy `df = self.df.copy()` — modelled by
`enrich`, a fresh value holding the added `Prev_*` columns — while
`_get_return` reads `self.df` only. The summary (or the "no signals found"
marker, `none`) is paired with the scanner state after the call. -/
def run_backtest (s : Scanner) : Scanner × Option (List Row) :=
  match s.df with
  | none => (s, none)
  | some fr =>
      ({ df := some fr },
        if (signalsOf fr).isEmpty then none else some (summarize (signalsOf fr)))

/-- Counting the defined entries of a column whose entries are all defined
counts every row. -/
theorem definedVals_map_length (f : Event → Option ℚ) (l : List Event)
    (h : ∀ e ∈ l, (f e).isSome = true) :
    (definedVals (l.map f)).length = l.length := by
  induction l with
  | nil => rfl
  | cons a t ih =>
    have ha := h a (List.mem_cons_self a t)
    have ht : ∀ e ∈ t, (f e).isSome = true := fun e he => h e (List.mem_cons_of_mem a he)
    obtain ⟨v, hv⟩ := Option.isSome_iff_exists.mp ha
    have hts := ih ht
    simp only [definedVals] at hts
    simp only [definedVals, List.map_cons, hv, List.filterMap_cons, id_eq,
      List.length_cons, hts]

/-- C7: on a non-empty annotated event list whose returns are all defined (as
the backtest loop guarantees), the aggregator yields exactly one row per
distinct kind present; each row's count is the number of events of its kind,
its means are the pandas NaN-skipping means of that kind's returns, and its
win rate is 100 times the fraction of the kind's events whose 20-bar return
is strictly positive (zero counts as a loss), hence lies in [0, 100]. -/
theorem c7_aggregate (evs : List Event) (hne : evs ≠ [])
    (hdef : ∀ e ∈ evs, e.r5.isSome = true ∧ e.r20.isSome = true) :
    List.Perm ((summarize evs).map Row.kind) (kindsOf evs) ∧
    ∀ row ∈ summarize evs,
      row.count = (groupEvents evs row.kind).length ∧
      row.avg5 = optMean ((groupEvents evs row.kind).map Event.r5) ∧
      row.avg20 = optMean ((groupEvents evs row.kind).map Event.r20) ∧
      row.win20 = (((groupEvents evs row.kind).filter
          (fun e => decide (0 < e.r20.getD 0))).length : ℚ) /
        ((groupEvents evs row.kind).length : ℚ) * 100 ∧
      0 ≤ row.win20 ∧ row.win20 ≤ 100 := by
  have hperm : List.Perm (summarize evs) ((kindsSorted evs).map (aggRow evs)) :=
    (List.reverse_perm _).trans (List.perm_insertionSort _ _)
  constructor
  · have h2 := hperm.map Row.kind
    rw [List.map_map] at h2
    have h3 : (Row.kind ∘ aggRow evs) = fun k => k := rfl
    rw [h3, List.map_id'] at h2
    exact h2.trans (List.perm_insertionSort _ _)
  · intro row hrow
    have hmem : row ∈ (kindsSorted evs).map (aggRow evs) := hperm.mem_iff.mp hrow
    obtain ⟨k, hk, rfl⟩ := List.mem_map.mp hmem
    have hgsub : ∀ e ∈ groupEvents evs k, e ∈ evs := fun e he => (List.mem_filter.mp he).1
    have hg5 : ∀ e ∈ groupEvents evs k, (Event.r5 e).isSome = true :=
      fun e he => (hdef e (hgsub e he)).1
    refine ⟨definedVals_map_length _ _ hg5, rfl, rfl, ?_, ?_, ?_⟩
    · have hcong : (groupEvents evs k).filter winWon =
          (groupEvents evs k).filter (fun e => decide (0 < e.r20.getD 0)) := by
        apply List.filter_congr
        intro e he
        obtain ⟨r, hr⟩ := Option.isSome_iff_exists.mp (hdef e (hgsub e he)).2
        simp [winWon, hr]
      show (((groupEvents evs k).filter winWon).length : ℚ) /
          ((groupEvents evs k).length : ℚ) * 100 = _
      rw [hcong]
      rfl
    · show 0 ≤ (((groupEvents evs k).filter winWon).length : ℚ) /
        ((groupEvents evs k).length : ℚ) * 100
      positivity
    · show (((groupEvents evs k).filter winWon).length : ℚ) /
        ((groupEvents evs k).length : ℚ) * 100 ≤ 100
      have hab : ((groupEvents evs k).filter winWon).length ≤
          (groupEvents evs k).length := List.length_filter_le _ _
      rcases Nat.eq_zero_or_pos (groupEvents evs k).length with hb | hb
      · rw [hb]
        norm_num
      · have hb' : (0 : ℚ) < ((groupEvents evs k).length : ℚ) := by exact_mod_cast hb
        have hle : ((((groupEvents evs k).filter winWon).length : ℚ) /
            ((groupEvents evs k).length : ℚ)) ≤ 1 :=
          (div_le_one hb').mpr (by exact_mod_cast hab)
        linarith

/-- Single-kind event list used to exercise the aggregator. -/
def aggEventsW : List Event :=
  [{ idx := 50, kind := "MACD Zero Cross Up", r5 := some 1, r10 := some 2, r20 := some 3 }]

/-- Witness for C7: on a concrete one-event list, the summary's kinds are a
permutation of the distinct kinds present, and the (only) row has the group
size as its count and a win rate within [0, 100]. -/
theorem c7_aggregate_witness :
    List.Perm ((summarize aggEventsW).map Row.kind) (kindsOf aggEventsW) ∧
    (summarize aggEventsW).headI.count =
      (groupEvents aggEventsW (summarize aggEventsW).headI.kind).length ∧
    0 ≤ (summarize aggEventsW).headI.win20 ∧
    (summarize aggEventsW).headI.win20 ≤ 100 := by
  have h := c7_aggregate aggEventsW (by decide) (by decide)
  have hm : (summarize aggEventsW).headI ∈ summarize aggEventsW := by
    cases hl : summarize aggEventsW with
    | nil => exact absurd hl (by decide)
    | cons a l => simp [hl]
  obtain ⟨hc, -, -, -, hw1, hw2⟩ := h.2 _ hm
  exact ⟨h.1, hc, hw1, hw2⟩

/-- C10: `run_backtest` never mutates the scanner's stored dataframe — every
column write inside it targets the copy, so the state after the call equals
the state before it, whatever it was. -/
theorem c10_run_backtest_preserves_df (s : Scanner) : (run_backtest s).1 = s := by
  rcases s with ⟨df⟩
  cases df <;> rfl

end StockBacktester
